import Mathlib

/-!
Verification of the spiral growth and culling engine (`spirals.py`).

The source operates on 2-D points represented as numpy arrays of floats;
we embed the geometry over exact rationals (`ℚ`), so comparisons against
the thresholds `MIN_LENGHT` and `MAX_SPIRAL_CENTER_DEVIATION`, which the
source performs on Euclidean norms, are embedded as the equivalent
comparisons of squared norms against squared thresholds (both sides are
nonnegative, so the comparisons agree).  Python list indexing (including
negative-index wrap-around and `IndexError`) and slicing are modelled
explicitly; `sys.exit` inside the growth loop and the `IndexError` that
`step` can raise on an empty active spiral are modelled by the `Except`
error monad.
-/

set_option allowUnsafeReducibility true in
attribute [semireducible] Rat.add Rat.mul Rat.sub Rat.inv

namespace Spirals

/-- Source constant `Spiral.MAX_LINES`. -/
def MAX_LINES : Nat := 10000

/-- Source constant `Spiral.MIN_LENGHT` (sic, source spelling). -/
def MIN_LENGHT : ℚ := 10

/-- Source constant `Spiral.MAX_SPIRAL_CENTER_DEVIATION`. -/
def MAX_SPIRAL_CENTER_DEVIATION : ℚ := 10

/-- A 2-D point, as the source's 2-element numpy arrays. -/
abbrev Point := ℚ × ℚ

/-- A line: ordered pair of endpoints, as the source's 2x2 numpy arrays. -/
abbrev Line := Point × Point

def padd (p q : Point) : Point := (p.1 + q.1, p.2 + q.2)

def psub (p q : Point) : Point := (p.1 - q.1, p.2 - q.2)

def psmul (s : ℚ) (p : Point) : Point := (s * p.1, s * p.2)

/-- Squared Euclidean norm; the source compares `np.linalg.norm` (a square
root) against nonnegative thresholds, which we embed as comparisons of
this squared norm against the squared thresholds. -/
def normSq (p : Point) : ℚ := p.1 * p.1 + p.2 * p.2

def distSq (p q : Point) : ℚ := normSq (psub p q)

/-- Source `eta_point(line, eta) = line[0] + eta*(line[1]-line[0])`. -/
def etaPoint (l : Line) (eta : ℚ) : Point := padd l.1 (psmul eta (psub l.2 l.1))

/-- Source `average_point_of_lines`: the per-axis `np.average` of the
`eta_point(line, 0.5)` midpoints. -/
def averagePointOfLines (ls : List Line) : Point :=
  (((ls.map (fun l => etaPoint l (1/2))).map Prod.fst).sum
      / ((ls.map (fun l => etaPoint l (1/2))).length : ℚ),
   ((ls.map (fun l => etaPoint l (1/2))).map Prod.snd).sum
      / ((ls.map (fun l => etaPoint l (1/2))).length : ℚ))

/-- Python list indexing `xs[i]`: nonnegative indices from the front,
negative indices wrap from the back, anything else is an `IndexError`
(modelled as `none`). -/
def pyGet {α : Type} (xs : List α) (i : Int) : Option α :=
  if 0 ≤ i then xs.get? i.toNat
  else if -(xs.length : Int) ≤ i then xs.get? (xs.length + i).toNat
  else none

/-- Python slice `xs[-n:]`: the last `n` elements, except that `-0` is `0`
so `xs[-0:]` is all of `xs`. -/
def pySliceLast {α : Type} (n : Nat) (xs : List α) : List α :=
  if n = 0 then xs else xs.drop (xs.length - n)

/-- The error raised by `Spiral.__init__`'s `assert` statements
(spec name: `InvalidParameter`). -/
inductive SpiralError where
  | invalidParameter
deriving DecidableEq

/-- Errors that `Spiral.step` can raise: the `sys.exit("Too many lines in
spiral")` abort (spec name: `GrowthOverflow`), a Python `IndexError` from
list indexing, and a marker for the (unreachable for `n_vert ≥ 1`)
non-terminating growth loop. -/
inductive StepErr where
  | growthOverflow
  | indexError
  | nonTermination
deriving DecidableEq

/-- The `Spiral` object's fields. -/
structure Spiral where
  chirality : String
  view_size : Point
  center : Point
  eta : ℚ
  growth_rate : ℚ
  active : Bool
  n_vert : Nat
  lines : List Line
deriving DecidableEq, Inhabited

/-- The initial ring built by `Spiral.__init__`: for each `i`,
a line from `poly_vertices[i-1] + center` to `poly_vertices[i] + center`
(Python's `[i-1]` wraps to the last vertex at `i = 0`). -/
def initRing (vs : List Point) (c : Point) : List Line :=
  (List.range vs.length).map (fun i =>
    (padd (vs.getD ((i + vs.length - 1) % vs.length) (0, 0)) c,
     padd (vs.getD i (0, 0)) c))

/-- `Spiral.__init__`: validate the parameters (the three `assert`
statements), reverse the vertex order for `'-'` chirality, and build the
initial closed ring. -/
def mkSpiral (poly_vertices : List Point) (chirality : String)
    (view_size center : Point) (eta growth_rate : ℚ) :
    Except SpiralError Spiral :=
  if chirality = "+" ∨ chirality = "-" then
    if 0 < eta ∧ eta < 1 then
      if 0 < growth_rate then
        Except.ok
          { chirality := chirality
            view_size := view_size
            center := center
            eta := eta
            growth_rate := growth_rate
            active := true
            n_vert := poly_vertices.length
            lines := initRing
              (if chirality = "-" then poly_vertices.reverse else poly_vertices)
              center }
      else Except.error SpiralError.invalidParameter
    else Except.error SpiralError.invalidParameter
  else Except.error SpiralError.invalidParameter

/-- Source `Spiral._spiral_center`: the average point of the last
`n_vert` lines (`self.lines[-self.n_vert:]`) when any lines exist, else
the fixed `center`. -/
def Spiral.spiralCenter (sp : Spiral) : Point :=
  if 0 < sp.lines.length then averagePointOfLines (pySliceLast sp.n_vert sp.lines)
  else sp.center

/-- Source `Spiral._is_line_visible`: the four-way disjunction of
strict coordinate-inside-bounds tests. -/
def Spiral.isLineVisible (sp : Spiral) (l : Line) : Bool :=
  decide ((0 < l.1.1 ∧ l.1.1 < sp.view_size.1) ∨
          (0 < l.1.2 ∧ l.1.2 < sp.view_size.2) ∨
          (0 < l.2.1 ∧ l.2.1 < sp.view_size.1) ∨
          (0 < l.2.2 ∧ l.2.2 < sp.view_size.2))

/-- One pass of the inner `for i in range(self.n_vert)` loop of the growth
phase: `k` iterations remain; each appends
`[lines[i][1], eta_point(lines[j], eta)]` with `i = len(lines)-1` and
`j = len(lines)-n_vert+1` recomputed on the current list. -/
def growPass (nv : Nat) (eta : ℚ) : Nat → List Line → Except StepErr (List Line)
  | 0, ls => Except.ok ls
  | Nat.succ k, ls =>
    match pyGet ls ((ls.length : Int) - 1),
          pyGet ls ((ls.length : Int) - (nv : Int) + 1) with
    | some li, some lj => growPass nv eta k (ls ++ [(li.2, etaPoint lj eta)])
    | _, _ => Except.error StepErr.indexError

/-- The `while` growth loop: while the last line is longer than
`MIN_LENGHT`, run one `growPass` of `nv` appends, then abort with
`growthOverflow` if the line count exceeds `MAX_LINES`.  `fuel` bounds the
number of iterations; `growFuel` below is large enough that the bound is
never hit when `nv ≥ 1` (each pass grows the list, and the overflow check
aborts past `MAX_LINES`). -/
def growLoop (nv : Nat) (eta : ℚ) : Nat → List Line → Except StepErr (List Line)
  | 0, _ => Except.error StepErr.nonTermination
  | Nat.succ fuel, ls =>
    match pyGet ls (-1) with
    | none => Except.error StepErr.indexError
    | some last =>
      if normSq (psub last.1 last.2) > MIN_LENGHT * MIN_LENGHT then
        match growPass nv eta nv ls with
        | Except.error e => Except.error e
        | Except.ok ls2 =>
          if ls2.length > MAX_LINES then Except.error StepErr.growthOverflow
          else growLoop nv eta fuel ls2
      else Except.ok ls

def growFuel : Nat := MAX_LINES + 2

/-- The spiral state after culling: keep only the visible lines. -/
def cullResult (sp : Spiral) (grown : List Line) : Spiral :=
  { sp with lines := grown.filter (fun l => sp.isLineVisible l) }

/-- The rescale phase of `Spiral.step`: the source's list comprehension
`[s*(line - spiral_center) + self.center for line in self.lines]` with
`s = 1 + growth_rate * dT`. -/
def Spiral.rescaledLines (sp : Spiral) (dT : ℚ) : List Line :=
  sp.lines.map (fun l =>
    (padd (psmul (1 + sp.growth_rate * dT) (psub l.1 sp.spiralCenter)) sp.center,
     padd (psmul (1 + sp.growth_rate * dT) (psub l.2 sp.spiralCenter)) sp.center))

/-- The growth phase of `Spiral.step`: the `while` loop, run only when
the spiral is `active`; otherwise the line list passes through
unchanged.  Its normal result is the pre-cull line list of the step. -/
def Spiral.growthPhase (sp : Spiral) (scaled : List Line) :
    Except StepErr (List Line) :=
  if sp.active then growLoop sp.n_vert sp.eta growFuel scaled
  else Except.ok scaled

/-- The tail of `Spiral.step` after the rescale: the growth phase
followed by visibility culling. -/
def stepTail (sp : Spiral) (scaled : List Line) : Except StepErr Spiral :=
  Except.map (cullResult sp) (sp.growthPhase scaled)

/-- Source `Spiral.step(dT)`: compute the spiral center, clear everything
and return if it deviates from `center` by more than
`MAX_SPIRAL_CENTER_DEVIATION`, otherwise rescale every line by
`s*(line - spiral_center) + center` with `s = 1 + growth_rate*dT`, then
grow (if active) and cull. -/
def Spiral.step (sp : Spiral) (dT : ℚ) : Except StepErr Spiral :=
  if distSq sp.spiralCenter sp.center >
      MAX_SPIRAL_CENTER_DEVIATION * MAX_SPIRAL_CENTER_DEVIATION then
    Except.ok { sp with lines := [] }
  else
    stepTail sp (sp.rescaledLines dT)

/-- The inner loop of `SpiralsHandler.take_n_steps` for one spiral:
`n` successive `step(dT)` calls; a raised error propagates. -/
def Spiral.stepN (sp : Spiral) (n : Nat) (dT : ℚ) : Except StepErr Spiral :=
  match n with
  | 0 => Except.ok sp
  | Nat.succ m =>
    match sp.step dT with
    | Except.error e => Except.error e
    | Except.ok sp2 => sp2.stepN m dT

/-- The `SpiralsHandler` state relevant to the spiral collection. -/
structure SpiralsHandler where
  view_size : Point
  max_active_spirals : Nat
  spirals : List Spiral
deriving DecidableEq

/-- `sum([s.active for s in self.spirals])`: the number of active spirals. -/
def SpiralsHandler.activeCount (h : SpiralsHandler) : Nat :=
  (h.spirals.filter (fun s => s.active)).length

/-- Source `SpiralsHandler.add_random_spiral`, with the randomness
injected: the spiral constructed from the `random.choice`-sampled pool
values is passed in as `newSpiral`.  The handler appends it exactly when
the active count is below `max_active_spirals`. -/
def SpiralsHandler.addRandomSpiral (h : SpiralsHandler) (newSpiral : Spiral) :
    SpiralsHandler :=
  if h.activeCount < h.max_active_spirals then
    { h with spirals := h.spirals ++ [newSpiral] }
  else h

/-- Swap the two endpoints of a line (reverse its traversal direction). -/
def lineFlip (l : Line) : Line := (l.2, l.1)

/-- Spec-side definition: the midpoint of a segment, from the spec's
"midpoints" wording. -/
def midpointSpec (l : Line) : Point :=
  ((l.1.1 + l.2.1) / 2, (l.1.2 + l.2.2) / 2)

/-- Spec-side definition: the arithmetic mean of a list of points. -/
def meanPointsSpec (ps : List Point) : Point :=
  ((ps.map Prod.fst).sum / (ps.length : ℚ),
   (ps.map Prod.snd).sum / (ps.length : ℚ))

/-- Spec-side definition of the pivot: "the arithmetic mean of the
midpoints of the last N segments (N = base-shape vertex count) when any
segments exist, and center when the segment list is empty". -/
def pivotSpec (sp : Spiral) : Point :=
  if sp.lines = [] then sp.center
  else meanPointsSpec ((sp.lines.drop (sp.lines.length - sp.n_vert)).map midpointSpec)

/-! Concrete inputs used by the witnesses below. -/

/-- A 4-vertex base shape (unit square around the origin). -/
def sq4 : List Point := [(0, -1), (1, 0), (0, 1), (-1, 0)]

/-- A 3-vertex base shape with pairwise distinct vertices. -/
def tri3 : List Point := [(0, 0), (1, 0), (0, 1)]

/-- A validly constructed spiral whose anchor lies far outside its small
view rectangle, so that one step culls every line. -/
def demoFar : Spiral :=
  (mkSpiral sq4 "+" (10, 10) (1000, 1000) (1/10) (1/1000)).toOption.getD default

/-- The result of one `step 0` on `demoFar`: still active, no lines. -/
def demoFarStep : Spiral := (demoFar.step 0).toOption.getD default

/-- `demoFar` retired (`active := false`). -/
def demoInactive : Spiral := { demoFar with active := false }

/-- A spiral state whose windowed centroid deviates from `center` by more
than `MAX_SPIRAL_CENTER_DEVIATION`. -/
def degSp : Spiral :=
  { chirality := "+", view_size := (640, 640), center := (0, 0)
    eta := 1/2, growth_rate := 1/2, active := true, n_vert := 3
    lines := [((100, 0), (100, 0))] }

/-- The clockwise spiral built from `tri3`. -/
def demoP : Spiral :=
  (mkSpiral tri3 "+" (640, 640) (0, 0) (1/2) 1).toOption.getD default

/-- The counter-clockwise spiral built from `tri3`. -/
def demoM : Spiral :=
  (mkSpiral tri3 "-" (640, 640) (0, 0) (1/2) 1).toOption.getD default

/-- An empty handler with room for one active spiral. -/
def demoHandler : SpiralsHandler :=
  { view_size := (10, 10), max_active_spirals := 1, spirals := [] }

/-! Helper lemmas about the initial ring and construction. -/

lemma initRing_length (vs : List Point) (c : Point) :
    (initRing vs c).length = vs.length := by
  simp [initRing]

lemma initRing_get (vs : List Point) (c : Point) (i : Nat) (hi : i < vs.length) :
    (initRing vs c).get? i =
      some (padd (vs.getD ((i + vs.length - 1) % vs.length) (0, 0)) c,
            padd (vs.getD i (0, 0)) c) := by
  simp [initRing, List.get?_eq_getElem?, List.getElem?_map, List.getElem?_range hi]

lemma getD_reverse {α : Type} (l : List α) (k : Nat) (hk : k < l.length) (d : α) :
    l.reverse.getD k d = l.getD (l.length - 1 - k) d := by
  rw [List.getD_eq_getElem?_getD, List.getD_eq_getElem?_getD, List.getElem?_reverse hk]

lemma mkSpiral_ok_fields (pv : List Point) (ch : String) (view c : Point)
    (eta gr : ℚ) (sp : Spiral) (h : mkSpiral pv ch view c eta gr = Except.ok sp) :
    sp.lines = initRing (if ch = "-" then pv.reverse else pv) c ∧
    sp.n_vert = pv.length ∧ sp.active = true ∧ sp.center = c := by
  unfold mkSpiral at h
  split_ifs at h with h1 h2 h3 h4
  · rw [Except.ok.injEq] at h
    subst h
    simp [h4]
  · rw [Except.ok.injEq] at h
    subst h
    simp [h4]

lemma idx_pred_succ (N i : Nat) (hN : 0 < N) (hi : i < N) :
    ((i + 1) % N + N - 1) % N = i := by
  rcases Nat.lt_or_ge (i + 1) N with hlt | hge
  · rw [Nat.mod_eq_of_lt hlt]
    have e : i + 1 + N - 1 = i + N := by omega
    rw [e, Nat.add_mod_right, Nat.mod_eq_of_lt hi]
  · have he : i + 1 = N := by omega
    rw [he, Nat.mod_self]
    have e : 0 + N - 1 = N - 1 := by omega
    rw [e, Nat.mod_eq_of_lt (by omega)]
    omega

lemma initRing_closed (ws : List Point) (c : Point) (i : Nat) (hi : i < ws.length) :
    Option.map Prod.snd ((initRing ws c).get? i) =
    Option.map Prod.fst ((initRing ws c).get? ((i + 1) % ws.length)) := by
  have hN : 0 < ws.length := lt_of_le_of_lt (Nat.zero_le i) hi
  have hm : (i + 1) % ws.length < ws.length := Nat.mod_lt _ hN
  rw [initRing_get ws c i hi, initRing_get ws c _ hm]
  simp only [Option.map_some']
  rw [idx_pred_succ ws.length i hN hi]

lemma idx_rev_fst (N i : Nat) (hN : 0 < N) (hi : i < N) :
    N - 1 - ((i + N - 1) % N) = (N - i) % N := by
  rcases Nat.eq_zero_or_pos i with hz | hpos
  · subst hz
    have e : 0 + N - 1 = N - 1 := by omega
    rw [e, Nat.mod_eq_of_lt (by omega)]
    have e2 : N - 0 = N := by omega
    rw [e2, Nat.mod_self]
    omega
  · have e : i + N - 1 = (i - 1) + N := by omega
    rw [e, Nat.add_mod_right, Nat.mod_eq_of_lt (by omega),
        Nat.mod_eq_of_lt (show N - i < N by omega)]
    omega

lemma idx_rev_snd (N i : Nat) (hN : 0 < N) (hi : i < N) :
    N - 1 - i = ((N - i) % N + N - 1) % N := by
  rcases Nat.eq_zero_or_pos i with hz | hpos
  · subst hz
    have e : N - 0 = N := by omega
    rw [e, Nat.mod_self]
    have e2 : 0 + N - 1 = N - 1 := by omega
    rw [e2, Nat.mod_eq_of_lt (by omega)]
    omega
  · rw [Nat.mod_eq_of_lt (show N - i < N by omega)]
    have e : N - i + N - 1 = (N - i - 1) + N := by omega
    rw [e, Nat.add_mod_right, Nat.mod_eq_of_lt (by omega)]
    omega

lemma initRing_reverse_flip (vs : List Point) (c : Point) (i : Nat)
    (hi : i < vs.length) :
    (initRing vs.reverse c).get? i =
    Option.map lineFlip ((initRing vs c).get? ((vs.length - i) % vs.length)) := by
  have hN : 0 < vs.length := lt_of_le_of_lt (Nat.zero_le i) hi
  have hm : (vs.length - i) % vs.length < vs.length := Nat.mod_lt _ hN
  rw [initRing_get vs.reverse c i (by simpa using hi),
      initRing_get vs c _ hm]
  simp only [Option.map_some', lineFlip, List.length_reverse, Option.some.injEq,
    Prod.mk.injEq]
  constructor
  · rw [getD_reverse vs _ (Nat.mod_lt _ hN) (0, 0), idx_rev_fst vs.length i hN hi]
  · rw [getD_reverse vs i hi (0, 0), idx_rev_snd vs.length i hN hi]

/-- C2: a spiral constructed from an N-vertex base shape (N ≥ 3) with
valid parameters has exactly N lines, and they close up cyclically: each
line's second endpoint is the next line's first endpoint, the last
wrapping to the first. -/
theorem construction_ring_closed (pv : List Point) (ch : String) (view c : Point)
    (eta gr : ℚ) (sp : Spiral) (hn : 3 ≤ pv.length)
    (hok : mkSpiral pv ch view c eta gr = Except.ok sp) :
    sp.lines.length = pv.length ∧
    ∀ i : Nat, i < pv.length →
      Option.map Prod.snd (sp.lines.get? i) =
      Option.map Prod.fst (sp.lines.get? ((i + 1) % pv.length)) := by
  obtain ⟨hl, -, -, -⟩ := mkSpiral_ok_fields pv ch view c eta gr sp hok
  have hws : (if ch = "-" then pv.reverse else pv).length = pv.length := by
    split <;> simp
  refine ⟨by rw [hl, initRing_length, hws], ?_⟩
  intro i hi
  rw [hl]
  have h2 := initRing_closed (if ch = "-" then pv.reverse else pv) c i
    (by rw [hws]; exact hi)
  rwa [hws] at h2

/-- C2 witness: instantiation at the 4-vertex demo construction. -/
theorem construction_ring_closed_w :
    demoFar.lines.length = sq4.length ∧
    Option.map Prod.snd (demoFar.lines.get? 3) =
    Option.map Prod.fst (demoFar.lines.get? ((3 + 1) % sq4.length)) :=
  ⟨(construction_ring_closed sq4 "+" (10, 10) (1000, 1000) (1/10) (1/1000)
      demoFar (by decide) (by rfl)).1,
   (construction_ring_closed sq4 "+" (10, 10) (1000, 1000) (1/10) (1/1000)
      demoFar (by decide) (by rfl)).2 3 (by decide)⟩

/-- C6 counterexample: for the 3-vertex base shape `tri3`, the
counter-clockwise initial ring is neither the clockwise ring with the
list order reversed, nor the reversed list with each segment's endpoints
also swapped; so the two rings are not exact reverses of each other. -/
theorem chirality_reverse_counterexample :
    demoM.lines ≠ demoP.lines.reverse ∧
    demoM.lines ≠ demoP.lines.reverse.map lineFlip :=
  ⟨by decide, by decide⟩

/-- C6 amended: for the same base shape and parameters, segment `i` of
the counter-clockwise initial ring is the endpoint swap of segment
`(N - i) % N` of the clockwise initial ring — the reversed traversal,
with each segment flipped, rotated cyclically by one position. -/
theorem chirality_reverse_amended (vs : List Point) (view c : Point)
    (eta gr : ℚ) (sm sp : Spiral)
    (hm : mkSpiral vs "-" view c eta gr = Except.ok sm)
    (hp : mkSpiral vs "+" view c eta gr = Except.ok sp)
    (i : Nat) (hi : i < vs.length) :
    sm.lines.get? i =
    Option.map lineFlip (sp.lines.get? ((vs.length - i) % vs.length)) := by
  obtain ⟨hlm, -, -, -⟩ := mkSpiral_ok_fields vs "-" view c eta gr sm hm
  obtain ⟨hlp, -, -, -⟩ := mkSpiral_ok_fields vs "+" view c eta gr sp hp
  have hlm2 : sm.lines = initRing vs.reverse c := by simpa using hlm
  have hlp2 : sp.lines = initRing vs c := by simpa using hlp
  rw [hlm2, hlp2]
  exact initRing_reverse_flip vs c i hi

/-- C6 amended witness: instantiation at `tri3`, index 1. -/
theorem chirality_reverse_amended_w :
    demoM.lines.get? 1 =
    Option.map lineFlip (demoP.lines.get? ((tri3.length - 1) % tri3.length)) :=
  chirality_reverse_amended tri3 (640, 640) (0, 0) (1/2) 1 demoM demoP
    (by rfl) (by rfl) 1 (by decide)

/-- C7: construction fails with `InvalidParameter` exactly when chirality
is not one of the two enumerated values, `eta` is outside the open
interval (0,1), or `growth_rate ≤ 0`; with all three parameters in their
documented domains, construction succeeds. -/
theorem mkSpiral_invalid_iff (pv : List Point) (ch : String) (view c : Point)
    (eta gr : ℚ) :
    (mkSpiral pv ch view c eta gr = Except.error SpiralError.invalidParameter ↔
      ¬((ch = "+" ∨ ch = "-") ∧ (0 < eta ∧ eta < 1) ∧ 0 < gr)) ∧
    ((∃ sp, mkSpiral pv ch view c eta gr = Except.ok sp) ↔
      ((ch = "+" ∨ ch = "-") ∧ (0 < eta ∧ eta < 1) ∧ 0 < gr)) := by
  unfold mkSpiral
  split_ifs with h1 h2 h3 <;> simp_all

/-! Helper lemmas about the growth loop and the step tail. -/

lemma growPass_ok_length (nv : Nat) (eta : ℚ) (k : Nat) (ls out : List Line)
    (h : growPass nv eta k ls = Except.ok out) : out.length = ls.length + k := by
  induction k generalizing ls with
  | zero =>
    simp only [growPass, Except.ok.injEq] at h
    subst h
    omega
  | succ k ih =>
    simp only [growPass] at h
    cases h1 : pyGet ls ((ls.length : Int) - 1) with
    | none => simp [h1] at h
    | some li =>
      cases h2 : pyGet ls ((ls.length : Int) - (nv : Int) + 1) with
      | none => simp [h1, h2] at h
      | some lj =>
        simp only [h1, h2] at h
        have h3 := ih _ h
        simp only [List.length_append, List.length_cons, List.length_nil] at h3
        omega

lemma growLoop_ok_le (nv : Nat) (eta : ℚ) (fuel : Nat) (ls out : List Line)
    (h : growLoop nv eta fuel ls = Except.ok out) :
    out.length ≤ MAX_LINES ∨ out.length ≤ ls.length := by
  induction fuel generalizing ls with
  | zero => simp [growLoop] at h
  | succ fuel ih =>
    simp only [growLoop] at h
    cases h1 : pyGet ls (-1) with
    | none => simp [h1] at h
    | some last =>
      simp only [h1] at h
      by_cases hc : normSq (psub last.1 last.2) > MIN_LENGHT * MIN_LENGHT
      · rw [if_pos hc] at h
        cases h2 : growPass nv eta nv ls with
        | error e => simp [h2] at h
        | ok ls2 =>
          simp only [h2] at h
          by_cases h3 : ls2.length > MAX_LINES
          · rw [if_pos h3] at h
            simp at h
          · rw [if_neg h3] at h
            rcases ih ls2 h with h4 | h4
            · exact Or.inl h4
            · exact Or.inl (le_trans h4 (by omega))
      · rw [if_neg hc, Except.ok.injEq] at h
        subst h
        exact Or.inr le_rfl

lemma stepTail_ok (sp : Spiral) (scaled : List Line) (sp' : Spiral)
    (h : stepTail sp scaled = Except.ok sp') :
    ∃ grown : List Line,
      sp.growthPhase scaled = Except.ok grown ∧
      sp' = cullResult sp grown := by
  unfold stepTail at h
  cases hg : sp.growthPhase scaled with
  | error e =>
    rw [hg] at h
    simp [Except.map] at h
  | ok grown =>
    rw [hg] at h
    simp only [Except.map, Except.ok.injEq] at h
    exact ⟨grown, rfl, h.symm⟩

lemma stepTail_inactive (sp : Spiral) (scaled : List Line)
    (h : sp.active = false) :
    stepTail sp scaled = Except.ok (cullResult sp scaled) := by
  unfold stepTail Spiral.growthPhase
  rw [h]
  simp [Except.map]

lemma cullResult_length_le (sp : Spiral) (grown : List Line) :
    (cullResult sp grown).lines.length ≤ grown.length := by
  simpa [cullResult] using List.length_filter_le _ grown

lemma rescaledLines_length (sp : Spiral) (dT : ℚ) :
    (sp.rescaledLines dT).length = sp.lines.length := List.length_map _ _

/-- C1: `step` preserves the hard cap.  From any state within the cap,
whenever `step` returns normally the resulting line list is still within
the cap; the only way past it is the `growthOverflow` abort raised inside
the growth loop, so growth never silently exceeds `MAX_LINES`. -/
theorem step_respects_hard_cap (sp : Spiral) (dT : ℚ) (sp' : Spiral)
    (hlen : sp.lines.length ≤ MAX_LINES) (hok : sp.step dT = Except.ok sp') :
    sp'.lines.length ≤ MAX_LINES := by
  unfold Spiral.step at hok
  by_cases hdeg : distSq sp.spiralCenter sp.center >
      MAX_SPIRAL_CENTER_DEVIATION * MAX_SPIRAL_CENTER_DEVIATION
  · rw [if_pos hdeg, Except.ok.injEq] at hok
    subst hok
    simp
  · rw [if_neg hdeg] at hok
    obtain ⟨grown, hg, hsp⟩ := stepTail_ok sp _ sp' hok
    subst hsp
    have hcull := cullResult_length_le sp grown
    have hmap := rescaledLines_length sp dT
    unfold Spiral.growthPhase at hg
    cases hact : sp.active with
    | false =>
      rw [hact] at hg
      simp only [Bool.false_eq_true, if_false, Except.ok.injEq] at hg
      have hlg : grown.length = sp.lines.length := by
        rw [← hg]
        exact hmap
      omega
    | true =>
      rw [hact] at hg
      simp only [if_true] at hg
      have hle := growLoop_ok_le sp.n_vert sp.eta growFuel _ grown hg
      rcases hle with h4 | h4
      · omega
      · rw [hmap] at h4
        omega

/-- C1 witness: the demo spiral is within the cap and steps to a state
within the cap. -/
theorem step_respects_hard_cap_w : demoFarStep.lines.length ≤ MAX_LINES :=
  step_respects_hard_cap demoFar 0 demoFarStep (by decide) (by rfl)

/-! Spec-side equalities used for C3. -/

lemma etaPoint_half (l : Line) : etaPoint l (1/2) = midpointSpec l := by
  unfold etaPoint midpointSpec padd psmul psub
  simp only [Prod.mk.injEq]
  constructor <;> ring

lemma averagePoint_eq_mean (ls : List Line) :
    averagePointOfLines ls = meanPointsSpec (ls.map midpointSpec) := by
  have hf : (fun l : Line => etaPoint l (1/2)) = midpointSpec := funext etaPoint_half
  unfold averagePointOfLines meanPointsSpec
  rw [hf]

lemma spiralCenter_eq_pivotSpec (sp : Spiral) (hn : 1 ≤ sp.n_vert) :
    sp.spiralCenter = pivotSpec sp := by
  unfold Spiral.spiralCenter pivotSpec
  by_cases h : sp.lines = []
  · simp [h]
  · have hlen : 0 < sp.lines.length := List.length_pos.mpr h
    rw [if_pos hlen, if_neg h]
    unfold pySliceLast
    rw [if_neg (by omega)]
    exact averagePoint_eq_mean _

lemma padd_comm (p q : Point) : padd p q = padd q p := by
  unfold padd
  simp only [Prod.mk.injEq]
  constructor <;> ring

/-- C3: on a `step` call not cut short by the degeneracy check, every
pre-existing segment is replaced by `center + s * (segment - pivot)` with
`s = 1 + growth_rate * dT` and `pivot` the arithmetic mean of the
midpoints of the last `n_vert` segments (falling back to `center` when
the segment list is empty), and the call then proceeds with the growth
and culling phases (`stepTail`) on the rescaled list. -/
theorem step_rescale_about_pivot (sp : Spiral) (dT : ℚ) (hn : 1 ≤ sp.n_vert)
    (hnd : ¬ distSq sp.spiralCenter sp.center >
      MAX_SPIRAL_CENTER_DEVIATION * MAX_SPIRAL_CENTER_DEVIATION) :
    sp.step dT = stepTail sp (sp.lines.map (fun seg =>
      (padd sp.center (psmul (1 + sp.growth_rate * dT) (psub seg.1 (pivotSpec sp))),
       padd sp.center (psmul (1 + sp.growth_rate * dT) (psub seg.2 (pivotSpec sp)))))) := by
  unfold Spiral.step
  rw [if_neg hnd]
  have hfun : (fun l : Line =>
      (padd (psmul (1 + sp.growth_rate * dT) (psub l.1 sp.spiralCenter)) sp.center,
       padd (psmul (1 + sp.growth_rate * dT) (psub l.2 sp.spiralCenter)) sp.center)) =
      (fun seg : Line =>
      (padd sp.center (psmul (1 + sp.growth_rate * dT) (psub seg.1 (pivotSpec sp))),
       padd sp.center (psmul (1 + sp.growth_rate * dT) (psub seg.2 (pivotSpec sp))))) := by
    funext l
    rw [← spiralCenter_eq_pivotSpec sp hn]
    simp only [Prod.mk.injEq]
    exact ⟨padd_comm _ _, padd_comm _ _⟩
  unfold Spiral.rescaledLines
  rw [hfun]

/-- C3 witness: instantiation at the demo spiral with `dT = 0`. -/
theorem step_rescale_about_pivot_w :
    demoFar.step 0 = stepTail demoFar (demoFar.lines.map (fun seg =>
      (padd demoFar.center
        (psmul (1 + demoFar.growth_rate * 0) (psub seg.1 (pivotSpec demoFar))),
       padd demoFar.center
        (psmul (1 + demoFar.growth_rate * 0) (psub seg.2 (pivotSpec demoFar)))))) :=
  step_rescale_about_pivot demoFar 0 (by decide) (by decide)

/-- C4: when the windowed centroid deviates from `center` by more than
`MAX_SPIRAL_CENTER_DEVIATION` (squared distance above the squared
threshold, equivalently distance above 10), `step` clears all segments
and returns immediately: the result is the same spiral with an empty
line list, and no rescale, growth, or culling runs. -/
theorem step_degenerate_clears (sp : Spiral) (dT : ℚ)
    (hdeg : distSq sp.spiralCenter sp.center >
      MAX_SPIRAL_CENTER_DEVIATION * MAX_SPIRAL_CENTER_DEVIATION) :
    sp.step dT = Except.ok { sp with lines := [] } := by
  unfold Spiral.step
  rw [if_pos hdeg]

/-- C4 witness: a concrete degenerate spiral is cleared by `step`. -/
theorem step_degenerate_clears_w :
    degSp.step 0 = Except.ok { degSp with lines := [] } :=
  step_degenerate_clears degSp 0 (by decide)

/-- C5: on a normally returning, non-degenerate `step` call, the final
line list is exactly the actual pre-cull list of that call — the output
of the growth phase on the rescaled lines, to which the existential is
pinned by the `growthPhase` equation — filtered by `_is_line_visible`:
a segment of the pre-cull list is kept iff one of its endpoints has a
coordinate strictly inside the view bounds on the corresponding axis
(the four-way strict disjunction), and removed exactly otherwise; the
filter is the last operation of `step`, so nothing re-inserts a removed
segment. -/
theorem step_culling_exact (sp : Spiral) (dT : ℚ) (sp' : Spiral)
    (hnd : ¬ distSq sp.spiralCenter sp.center >
      MAX_SPIRAL_CENTER_DEVIATION * MAX_SPIRAL_CENTER_DEVIATION)
    (hok : sp.step dT = Except.ok sp') :
    ∃ pre : List Line,
      sp.growthPhase (sp.rescaledLines dT) = Except.ok pre ∧
      sp'.lines = pre.filter (fun l => sp.isLineVisible l) ∧
      (∀ l : Line, l ∈ sp'.lines ↔ l ∈ pre ∧ sp.isLineVisible l = true) ∧
      (∀ l : Line, sp.isLineVisible l = true ↔
        ((0 < l.1.1 ∧ l.1.1 < sp.view_size.1) ∨
         (0 < l.1.2 ∧ l.1.2 < sp.view_size.2) ∨
         (0 < l.2.1 ∧ l.2.1 < sp.view_size.1) ∨
         (0 < l.2.2 ∧ l.2.2 < sp.view_size.2))) := by
  unfold Spiral.step at hok
  rw [if_neg hnd] at hok
  obtain ⟨grown, hg, hsp⟩ := stepTail_ok sp _ sp' hok
  subst hsp
  refine ⟨grown, hg, by simp [cullResult], ?_, ?_⟩
  · intro l
    simp [cullResult, List.mem_filter]
  · intro l
    simp [Spiral.isLineVisible]

/-- C5 witness: instantiation at the demo spiral with `dT = 0`. -/
theorem step_culling_exact_w :
    ∃ pre : List Line,
      demoFar.growthPhase (demoFar.rescaledLines 0) = Except.ok pre ∧
      demoFarStep.lines = pre.filter (fun l => demoFar.isLineVisible l) ∧
      (∀ l : Line, l ∈ demoFarStep.lines ↔
        l ∈ pre ∧ demoFar.isLineVisible l = true) ∧
      (∀ l : Line, demoFar.isLineVisible l = true ↔
        ((0 < l.1.1 ∧ l.1.1 < demoFar.view_size.1) ∨
         (0 < l.1.2 ∧ l.1.2 < demoFar.view_size.2) ∨
         (0 < l.2.1 ∧ l.2.1 < demoFar.view_size.1) ∨
         (0 < l.2.2 ∧ l.2.2 < demoFar.view_size.2))) :=
  step_culling_exact demoFar 0 demoFarStep (by decide) (by rfl)

/-- C8: with the active count within the cap (the invariant the handler
maintains), `add_random_spiral` is a no-op (the handler, including every
existing spiral, is unchanged) exactly when the active count equals
`max_active_spirals`, and otherwise appends exactly one new spiral at
the end, leaving all existing spirals untouched. -/
theorem addRandomSpiral_cap (h : SpiralsHandler) (nsp : Spiral)
    (hle : h.activeCount ≤ h.max_active_spirals) :
    (h.activeCount = h.max_active_spirals → h.addRandomSpiral nsp = h) ∧
    (h.activeCount ≠ h.max_active_spirals →
      (h.addRandomSpiral nsp).spirals = h.spirals ++ [nsp] ∧
      (h.addRandomSpiral nsp).spirals.length = h.spirals.length + 1) := by
  constructor
  · intro heq
    unfold SpiralsHandler.addRandomSpiral
    rw [if_neg (by omega)]
  · intro hne
    unfold SpiralsHandler.addRandomSpiral
    rw [if_pos (by omega)]
    simp

/-- C8 witness: instantiation at the empty demo handler. -/
theorem addRandomSpiral_cap_w :
    (demoHandler.addRandomSpiral demoFar).spirals =
      demoHandler.spirals ++ [demoFar] ∧
    (demoHandler.addRandomSpiral demoFar).spirals.length =
      demoHandler.spirals.length + 1 :=
  (addRandomSpiral_cap demoHandler demoFar (by decide)).2 (by decide)

/-- C9: a retired spiral never regrows: when `active = false`, `step`
always returns normally, no segment is appended, and the resulting line
count is at most the starting line count (rescale preserves the count;
only the degeneracy check and culling remove lines). -/
theorem retired_never_regrows (sp : Spiral) (dT : ℚ)
    (hact : sp.active = false) (hdt : 0 ≤ dT) :
    ∃ sp', sp.step dT = Except.ok sp' ∧ sp'.lines.length ≤ sp.lines.length := by
  unfold Spiral.step
  by_cases hdeg : distSq sp.spiralCenter sp.center >
      MAX_SPIRAL_CENTER_DEVIATION * MAX_SPIRAL_CENTER_DEVIATION
  · rw [if_pos hdeg]
    exact ⟨_, rfl, by simp⟩
  · rw [if_neg hdeg, stepTail_inactive sp _ hact]
    refine ⟨_, rfl, ?_⟩
    calc (cullResult sp (sp.rescaledLines dT)).lines.length
        ≤ (sp.rescaledLines dT).length := cullResult_length_le _ _
      _ = sp.lines.length := rescaledLines_length sp dT

/-- C9 witness: instantiation at the retired demo spiral. -/
theorem retired_never_regrows_w :
    ∃ sp', demoInactive.step 0 = Except.ok sp' ∧
      sp'.lines.length ≤ demoInactive.lines.length :=
  retired_never_regrows demoInactive 0 (by rfl) (le_refl 0)

/-- C10: `step` on an active spiral with an empty line list fails with an
index error (the growth loop reads the last element of the empty list),
so `step` is not total; and the state is reachable through the public
interface: the demo spiral, validly constructed, is emptied by one step
(full culling) while staying active, so two consecutive steps — as
`take_n_steps` with `n ≥ 2` performs — raise the index error. -/
theorem step_empty_active_fails :
    (∀ (sp : Spiral) (dT : ℚ), sp.active = true → sp.lines = [] →
      sp.step dT = Except.error StepErr.indexError) ∧
    (demoFar.step 0 = Except.ok demoFarStep ∧ demoFarStep.active = true ∧
     demoFarStep.lines = [] ∧ demoFar.stepN 2 0 = Except.error StepErr.indexError) := by
  constructor
  · intro sp dT hact hemp
    have hsc : sp.spiralCenter = sp.center := by
      unfold Spiral.spiralCenter
      rw [hemp]
      simp
    have hd : distSq sp.center sp.center = 0 := by
      unfold distSq normSq psub
      simp
    unfold Spiral.step
    rw [hsc, if_neg (by rw [hd]; norm_num [MAX_SPIRAL_CENTER_DEVIATION])]
    unfold stepTail Spiral.growthPhase Spiral.rescaledLines
    rw [hact, hemp]
    simp only [List.map_nil, if_true]
    have hfuel : growFuel = 10001 + 1 := by norm_num [growFuel, MAX_LINES]
    have hpg : pyGet ([] : List Line) (-1) = none := by norm_num [pyGet]
    rw [hfuel]
    simp only [growLoop, hpg]
    rfl
  · exact ⟨rfl, rfl, rfl, rfl⟩

/-- C10 witness: the index error at the concrete emptied-but-active
spiral. -/
theorem step_empty_active_fails_w :
    demoFarStep.step 0 = Except.error StepErr.indexError :=
  step_empty_active_fails.1 demoFarStep 0 (by rfl) (by rfl)

end Spirals
